import Mathlib

/-
Verification development for the bigbluebutton telegraf input plugin.

The repository is a Go telegraf plugin that polls a BigBlueButton server,
decodes XML responses into meeting / recording / health-check values,
aggregates counters (globally and, when configured, per metadata value),
and emits the aggregates to a telegraf accumulator.

The embedding below translates the aggregation core from the Go source:
  - `xmlToMap` (bigbluebutton.go, also present verbatim in two other
    revisions of the file) over the token stream the XML decoder yields;
  - the `Record` counter model with `NewRecord`, `NewRecordFrom`,
    `ComputeMeetingMetrics`, `ComputeRecordingMetrics`,
    `ComputeOnlineMetric`;
  - `GetMetadataRecords` and the metadata-aware `Gather` cycle;
  - the `MeetingsMetric` path: `performMeetingCalculation` and
    `gatherMeetingsByMetadata`;
  - `processAPIStatus` and `gatherAPIStatus`.

Go `uint64` counters are modelled as `Nat` with wrap-around addition
`add64` (mod 2 to the 64); Go maps are modelled as association lists with
first-match lookup and in-place overwrite (`mLookup` / `mPut`); Go runtime
panics are modelled by `Option` with `none` for the aborted computation.
-/

namespace BBB

/-- 2 to the 64, the modulus of Go uint64 arithmetic. -/
def U64 : Nat := 2 ^ 64

/-- Go uint64 addition: wrap-around modulo 2 to the 64. -/
def add64 (a b : Nat) : Nat := (a + b) % U64

/-- Lookup in an association list modelling a Go map read
(first match; keys are kept unique by `mPut`). -/
def mLookup {α : Type} : List (String × α) → String → Option α
  | [], _ => none
  | (k, v) :: rest, key => if k = key then some v else mLookup rest key

/-- Go map assignment `m[k] = v`: overwrite the existing entry in place,
or append a new entry. -/
def mPut {α : Type} : List (String × α) → String → α → List (String × α)
  | [], k, v => [(k, v)]
  | (k', v') :: rest, k, v =>
      if k' = k then (k, v) :: rest else (k', v') :: mPut rest k v

/-- One token of the Go xml.Decoder stream, as consumed by `xmlToMap`.
The Go switch statement only inspects CharData and EndElement tokens;
`startElement` and `other` (comments, directives, ...) fall through. -/
inductive XmlToken where
  | startElement (name : String)
  | charData (text : String)
  | endElement (name : String)
  | other
deriving DecidableEq

/-- A metadata fragment as seen through the Go xml.Decoder: `tokens` are
the tokens `Token()` yields before it first returns a non-nil error, and
`decodeErr` records whether that error was a decode error (malformed
input) rather than plain end of input.  The Go loop condition `err == nil`
treats both terminations identically. -/
structure Fragment where
  tokens : List XmlToken
  decodeErr : Bool
deriving DecidableEq

/-- The loop body of Go `xmlToMap`, carrying the `values` text buffer and
the map `m` built so far.  On `endElement` the Go code executes
`m[t.Name.Local] = values[len(values)-1]` followed by `values = values[:]`
(a full re-slice, which leaves the buffer unchanged); indexing
`values[len(values)-1]` on an empty buffer is a runtime panic, modelled
as `none`. -/
def xmlToMapAux : List XmlToken → List String → List (String × String) →
    Option (List (String × String))
  | [], _, m => some m
  | XmlToken.startElement _ :: rest, values, m => xmlToMapAux rest values m
  | XmlToken.other :: rest, values, m => xmlToMapAux rest values m
  | XmlToken.charData s :: rest, values, m =>
      xmlToMapAux rest (values ++ [s]) m
  | XmlToken.endElement name :: rest, values, m =>
      match values.getLast? with
      | none => none
      | some v => xmlToMapAux rest values (mPut m name v)

/-- Go `xmlToMap`: runs the decoder loop over the fragment's token stream
starting from an empty buffer and an empty map.  The terminating error of
the stream (`decodeErr`) is never consulted: the Go loop simply stops and
returns `m`. -/
def xmlToMap (f : Fragment) : Option (List (String × String)) :=
  xmlToMapAux f.tokens [] []

/-- Go model.go / api.go `HealthCheck`. -/
structure HealthCheck where
  returnCode : String
  version : String
deriving DecidableEq

/-- Go `Meeting` (api.go): the XML counters, the raw metadata fragment
(`Metadata.Inner`, here as its decoded token stream) and the
`ParsedMetadata` map filled by `ParseMetadata`. -/
structure Meeting where
  participantCount : Nat
  listenerCount : Nat
  voiceParticipantCount : Nat
  videoCount : Nat
  recording : Bool
  metadataInner : Fragment
  parsedMetadata : List (String × String)
deriving DecidableEq

/-- Go `Recording` (api.go). -/
structure Recording where
  recordID : String
  published : Bool
  metadataInner : Fragment
  parsedMetadata : List (String × String)
deriving DecidableEq

/-- Go `MeetingsResponse`; `meetings` models `Meetings.Values`
(the single-field XML wrapper section is flattened). -/
structure MeetingsResponse where
  returnCode : String
  messageKey : String
  meetings : List Meeting
deriving DecidableEq

/-- Go `RecordingsResponse`; `recordings` models `Recordings.Values`. -/
structure RecordingsResponse where
  returnCode : String
  messageKey : String
  recordings : List Recording
deriving DecidableEq

/-- Go `MetadataStruct.ParseMetadata` for meetings:
`m.ParsedMetadata = xmlToMap(bytes.NewReader(m.Metadata.Inner))`.
`none` propagates the panic of `xmlToMap`. -/
def Meeting.ParseMetadata (m : Meeting) : Option Meeting :=
  (xmlToMap m.metadataInner).map (fun pm => { m with parsedMetadata := pm })

/-- Go `MetadataStruct.ContainsMetadata` for meetings. -/
def Meeting.ContainsMetadata (m : Meeting) (md : String) : Bool :=
  (mLookup m.parsedMetadata md).isSome

/-- Go `MetadataStruct.GetMetadata` for meetings; a Go map read of an
absent key yields the zero value, the empty string. -/
def Meeting.GetMetadata (m : Meeting) (md : String) : String :=
  (mLookup m.parsedMetadata md).getD ""

/-- Go `MetadataStruct.ParseMetadata` for recordings. -/
def Recording.ParseMetadata (r : Recording) : Option Recording :=
  (xmlToMap r.metadataInner).map (fun pm => { r with parsedMetadata := pm })

/-- Go `MetadataStruct.ContainsMetadata` for recordings. -/
def Recording.ContainsMetadata (r : Recording) (md : String) : Bool :=
  (mLookup r.parsedMetadata md).isSome

/-- Go `MetadataStruct.GetMetadata` for recordings. -/
def Recording.GetMetadata (r : Recording) (md : String) : String :=
  (mLookup r.parsedMetadata md).getD ""

/-- Go `Record` (record.go revision): the nine-counter global aggregate. -/
structure Record where
  meetings : Nat
  participants : Nat
  listenerParticipants : Nat
  voiceParticipants : Nat
  videoParticipants : Nat
  activeRecordings : Nat
  recordings : Nat
  publishedRecordings : Nat
  online : Nat
deriving DecidableEq

/-- Go `NewRecord`: every counter starts at zero. -/
def NewRecord : Record :=
  { meetings := 0, participants := 0, listenerParticipants := 0
    voiceParticipants := 0, videoParticipants := 0, activeRecordings := 0
    recordings := 0, publishedRecordings := 0, online := 0 }

/-- Body of the loop in Go `ComputeMeetingMetrics`: the per-meeting
counter updates (uint64 `+=` and `++`). -/
def accumulateMeeting (r : Record) (m : Meeting) : Record :=
  { r with
    participants := add64 r.participants m.participantCount
    listenerParticipants := add64 r.listenerParticipants m.listenerCount
    voiceParticipants := add64 r.voiceParticipants m.voiceParticipantCount
    videoParticipants := add64 r.videoParticipants m.videoCount
    activeRecordings :=
      if m.recording then add64 r.activeRecordings 1 else r.activeRecordings }

/-- Go `Record.ComputeMeetingMetrics`: early return on an empty list,
otherwise `rec.Meetings = uint64(len(ms))` (exact, as a Go slice length
always fits in uint64) followed by the accumulation loop. -/
def Record.ComputeMeetingMetrics (r : Record) (ms : List Meeting) : Record :=
  if ms.length = 0 then r
  else ms.foldl accumulateMeeting { r with meetings := ms.length }

/-- Body of the loop in Go `ComputeRecordingMetrics`. -/
def accumulateRecording (r : Record) (rc : Recording) : Record :=
  if rc.published then
    { r with publishedRecordings := add64 r.publishedRecordings 1 }
  else r

/-- Go `Record.ComputeRecordingMetrics`. -/
def Record.ComputeRecordingMetrics (r : Record) (rs : List Recording) : Record :=
  if rs.length = 0 then r
  else rs.foldl accumulateRecording { r with recordings := rs.length }

/-- Go `Record.ComputeOnlineMetric`: sets `Online` to 1 when the health
check return code is the literal "SUCCESS", otherwise leaves it as is. -/
def Record.ComputeOnlineMetric (r : Record) (h : HealthCheck) : Record :=
  if h.returnCode = "SUCCESS" then { r with online := 1 } else r

/-- Go `NewRecordFrom`: a fresh record filled from the meeting list, the
recording list and the health check, in that order. -/
def NewRecordFrom (ms : List Meeting) (rs : List Recording)
    (h : HealthCheck) : Record :=
  ((NewRecord.ComputeMeetingMetrics ms).ComputeRecordingMetrics rs).ComputeOnlineMetric h

/-- Go local type `storage` inside `GetMetadataRecords`. -/
structure MDStorage where
  meetings : List Meeting
  recordings : List Recording
deriving DecidableEq

/-- Go closure `createStorageIfNotExists` inside `GetMetadataRecords`. -/
def createStorageIfNotExists (store : List (String × MDStorage))
    (key : String) : List (String × MDStorage) :=
  if (mLookup store key).isNone then
    mPut store key { meetings := [], recordings := [] }
  else store

/-- Body of the meeting loop inside Go `GetMetadataRecords` for one
configured metadata name `md`: parse the meeting's metadata (the range
variable is a copy, so the parsed copy is what gets stored), skip the
meeting unless it carries `md`, otherwise append it to the bucket keyed
by the metadata VALUE.  `none` propagates a panic of `xmlToMap`. -/
def metadataMeetingStep (md : String) (store : List (String × MDStorage))
    (m : Meeting) : Option (List (String × MDStorage)) := do
  let m ← m.ParseMetadata
  if m.ContainsMetadata md then
    let val := m.GetMetadata md
    let store := createStorageIfNotExists store val
    let s := (mLookup store val).getD { meetings := [], recordings := [] }
    pure (mPut store val { s with meetings := s.meetings ++ [m] })
  else
    pure store

/-- Body of the recording loop inside Go `GetMetadataRecords`. -/
def metadataRecordingStep (md : String) (store : List (String × MDStorage))
    (r : Recording) : Option (List (String × MDStorage)) := do
  let r ← r.ParseMetadata
  if r.ContainsMetadata md then
    let val := r.GetMetadata md
    let store := createStorageIfNotExists store val
    let s := (mLookup store val).getD { meetings := [], recordings := [] }
    pure (mPut store val { s with recordings := s.recordings ++ [r] })
  else
    pure store

/-- Body of the outer loop of Go `GetMetadataRecords` over the configured
metadata names: one pass over the meetings, then one over the
recordings. -/
def metadataConfigStep (mr : MeetingsResponse) (rr : RecordingsResponse)
    (store : List (String × MDStorage)) (md : String) :
    Option (List (String × MDStorage)) := do
  let store ← mr.meetings.foldlM (metadataMeetingStep md) store
  rr.recordings.foldlM (metadataRecordingStep md) store

/-- Go `BigBlueButton.GetMetadataRecords` (the revision whose `Gather`
fetches all three responses before emitting): for each configured
metadata name, walk the meetings and the recordings, parse each record's
metadata, and append the record to the storage bucket keyed by the
metadata VALUE; finally build one `NewRecordFrom` per bucket.
`cfg` is the receiver's `GatherByMetadata`; `none` propagates a panic of
`xmlToMap` inside `ParseMetadata`. -/
def GetMetadataRecords (cfg : List String) (mr : MeetingsResponse)
    (rr : RecordingsResponse) (hr : HealthCheck) :
    Option (List (String × Record)) := do
  let store ← cfg.foldlM (metadataConfigStep mr rr) []
  pure (store.map (fun kv => (kv.1, NewRecordFrom kv.2.meetings kv.2.recordings hr)))

/-- Outcome of one poll cycle of the metadata-aware `Gather`:
the measurement records added to the telegraf accumulator so far,
together with either the returned error (`normal`) or a runtime panic
(`panicked`, from `xmlToMap` in a metadata fragment). -/
inductive CycleResult where
  | normal (emitted : List (String × Record)) (err : Option String)
  | panicked (emitted : List (String × Record))
deriving DecidableEq

/-- Go `BigBlueButton.Gather` of the `GetMetadataRecords` revision.  The
three fetch-and-decode steps (`getMeetings`, `getRecordings`,
`getHealCheck`) are external HTTP plus XML unmarshalling; their outcomes
enter as `Except` parameters.  On any failed step the function returns
the error having added nothing to the accumulator; on success it adds the
global record and then, when `GatherByMetadata` is non-empty, one record
per metadata value. -/
def Gather (cfg : List String) (fm : Except String MeetingsResponse)
    (fr : Except String RecordingsResponse)
    (fh : Except String HealthCheck) : CycleResult :=
  match fm with
  | .error e => .normal [] (some e)
  | .ok m =>
    match fr with
    | .error e => .normal [] (some e)
    | .ok r =>
      match fh with
      | .error e => .normal [] (some e)
      | .ok h =>
        let record := NewRecordFrom m.meetings r.recordings h
        let emitted := [("bigbluebutton", record)]
        if cfg.length > 0 then
          match GetMetadataRecords cfg m r h with
          | none => .panicked emitted
          | some recs =>
              .normal (emitted ++ recs.map (fun kv => ("bigbluebutton:" ++ kv.1, kv.2))) none
        else .normal emitted none

/-- Go `MeetingsMetric` (model.go of the latest revision). -/
structure MeetingsMetric where
  meetings : Nat
  participants : Nat
  listenerParticipants : Nat
  voiceParticipants : Nat
  videoParticipants : Nat
  activeRecordings : Nat
deriving DecidableEq

/-- Go `NewMeetingMetric`. -/
def NewMeetingMetric : MeetingsMetric :=
  { meetings := 0, participants := 0, listenerParticipants := 0
    voiceParticipants := 0, videoParticipants := 0, activeRecordings := 0 }

/-- Go `performMeetingCalculation`: mutates the metric through a pointer;
modelled as returning the updated metric. -/
def performMeetingCalculation (metric : MeetingsMetric) (meeting : Meeting) :
    MeetingsMetric :=
  { metric with
    meetings := add64 metric.meetings 1
    participants := add64 metric.participants meeting.participantCount
    listenerParticipants := add64 metric.listenerParticipants meeting.listenerCount
    voiceParticipants := add64 metric.voiceParticipants meeting.voiceParticipantCount
    videoParticipants := add64 metric.videoParticipants meeting.videoCount
    activeRecordings :=
      if meeting.recording then add64 metric.activeRecordings 1
      else metric.activeRecordings }

/-- Go `RecordingsMetric` (model.go of the latest revision). -/
structure RecordingsMetric where
  recordings : Nat
  publishedRecordings : Nat
deriving DecidableEq

/-- Go `NewRecordingMetric`. -/
def NewRecordingMetric : RecordingsMetric :=
  { recordings := 0, publishedRecordings := 0 }

/-- Go `performRecordingCalculation`. -/
def performRecordingCalculation (metric : RecordingsMetric)
    (recording : Recording) : RecordingsMetric :=
  { metric with
    recordings := add64 metric.recordings 1
    publishedRecordings :=
      if recording.published then add64 metric.publishedRecordings 1
      else metric.publishedRecordings }

/-- Go `BigBlueButton.gatherMeetingsByMetadata` of the latest revision
(the one working on `map[string]MeetingsMetric`).  For each configured
metadata name carried by the meeting it ensures a bucket exists, then
executes `metric := (*values)[key]` followed by
`performMeetingCalculation(&metric, meeting)`.  Indexing a Go map of
structs copies the value out of the map, so the calculation mutates a
local copy that is never stored back; the map is returned as it was
after the bucket initialization. -/
def gatherMeetingsByMetadata (cfg : List String)
    (values : List (String × MeetingsMetric)) (meeting : Meeting) :
    List (String × MeetingsMetric) :=
  cfg.foldl (fun values md =>
    match mLookup meeting.parsedMetadata md with
    | none => values
    | some val =>
      let key := val
      let values :=
        if (mLookup values key).isNone then mPut values key NewMeetingMetric
        else values
      let metric := (mLookup values key).getD NewMeetingMetric
      let _ := performMeetingCalculation metric meeting
      values) values

/-- Go `BigBlueButton.gatherRecordingsByMetadata` of the latest revision:
same shape, and the same lost write-back, as `gatherMeetingsByMetadata`. -/
def gatherRecordingsByMetadata (cfg : List String)
    (values : List (String × RecordingsMetric)) (recording : Recording) :
    List (String × RecordingsMetric) :=
  cfg.foldl (fun values md =>
    match mLookup recording.parsedMetadata md with
    | none => values
    | some val =>
      let key := val
      let values :=
        if (mLookup values key).isNone then mPut values key NewRecordingMetric
        else values
      let metric := (mLookup values key).getD NewRecordingMetric
      let _ := performRecordingCalculation metric recording
      values) values

/-- Go `APIStatusMetric`. -/
structure APIStatusMetric where
  online : Nat
deriving DecidableEq

/-- Go `NewAPIStatusMetric`. -/
def NewAPIStatusMetric : APIStatusMetric := { online := 0 }

/-- Go `BigBlueButton.processAPIStatus`. -/
def processAPIStatus (h : HealthCheck) : APIStatusMetric :=
  let metric := NewAPIStatusMetric
  if h.returnCode = "SUCCESS" then { metric with online := 1 } else metric

/-- Go `BigBlueButton.gatherAPIStatus`: builds the record `{"online": 0}`;
when the fetch or the unmarshalling of the health check fails it adds
that record to the accumulator AND returns the error (both error paths
behave identically, so the failed step enters as one `Except`); on
success it sets online and adds the record.  Result: the list of records
added to the accumulator, paired with the returned error. -/
def gatherAPIStatus (fetch : Except String HealthCheck) :
    List (String × Nat) × Option String :=
  match fetch with
  | .error e => ([("bigbluebutton_api", 0)], some e)
  | .ok h =>
      ([("bigbluebutton_api", if h.returnCode = "SUCCESS" then 1 else 0)], none)

/-- Token stream of the metadata fragment
`<tenant>acme</tenant>` as the Go xml.Decoder yields it. -/
def tenantFragment : Fragment :=
  { tokens := [XmlToken.startElement "tenant", XmlToken.charData "acme",
               XmlToken.endElement "tenant"]
    decodeErr := false }

/-- A sample meeting: 5 participants, 3 listeners, 3 voice, 1 video, not
recording, metadata `<tenant>acme</tenant>` (mirrors the repository's
getMeetings.xml test fixture and the example in the specification). -/
def sampleMeeting : Meeting :=
  { participantCount := 5, listenerCount := 3, voiceParticipantCount := 3
    videoCount := 1, recording := false, metadataInner := tenantFragment
    parsedMetadata := [] }

/-- `sampleMeeting` after `ParseMetadata`. -/
def sampleMeetingParsed : Meeting :=
  { sampleMeeting with parsedMetadata := [("tenant", "acme")] }

/-- A second sample meeting with different counters, used to exercise
permutation invariance. -/
def sampleMeetingB : Meeting :=
  { participantCount := 2, listenerCount := 1, voiceParticipantCount := 0
    videoCount := 0, recording := true
    metadataInner := { tokens := [], decodeErr := false }
    parsedMetadata := [] }

/-- A sample published recording carrying `<tenant>acme</tenant>`. -/
def sampleRecording : Recording :=
  { recordID := "record-1", published := true
    metadataInner := tenantFragment, parsedMetadata := [] }

/-- `sampleRecording` after `ParseMetadata`. -/
def sampleRecordingParsed : Recording :=
  { sampleRecording with parsedMetadata := [("tenant", "acme")] }

/-- A healthy health-check response. -/
def hcSuccess : HealthCheck := { returnCode := "SUCCESS", version := "2.0" }

/-- A getMeetings response with the single sample meeting. -/
def mrTenant : MeetingsResponse :=
  { returnCode := "SUCCESS", messageKey := "", meetings := [sampleMeeting] }

/-- A getRecordings response with the single sample recording. -/
def rrTenant : RecordingsResponse :=
  { returnCode := "SUCCESS", messageKey := "", recordings := [sampleRecording] }

/-- The meeting of the repository's own TestBigBlueButtonGatherByMetadata
scenario, as `processMeetings` hands it to `gatherMeetingsByMetadata`:
counters 5/3/3/1, not recording, parsed metadata `tenant -> localhost`. -/
def localhostMeeting : Meeting :=
  { participantCount := 5, listenerCount := 3, voiceParticipantCount := 3
    videoCount := 1, recording := false
    metadataInner := { tokens := [], decodeErr := false }
    parsedMetadata := [("tenant", "localhost")] }

/-! ### Helper lemmas -/

/-- A projection preserved by each fold step is preserved by the fold. -/
theorem foldl_preserve {α β γ : Type} (f : β → α → β) (g : β → γ)
    (hp : ∀ b a, g (f b a) = g b) :
    ∀ (l : List α) (b : β), g (l.foldl f b) = g b
  | [], _ => rfl
  | a :: l, b => by
    rw [List.foldl_cons, foldl_preserve f g hp l (f b a), hp]

theorem accumulateMeeting_online (b : Record) (a : Meeting) :
    (accumulateMeeting b a).online = b.online := rfl

theorem accumulateMeeting_meetings (b : Record) (a : Meeting) :
    (accumulateMeeting b a).meetings = b.meetings := rfl

theorem accumulateMeeting_recordings (b : Record) (a : Meeting) :
    (accumulateMeeting b a).recordings = b.recordings := rfl

theorem accumulateRecording_online (b : Record) (a : Recording) :
    (accumulateRecording b a).online = b.online := by
  unfold accumulateRecording; split <;> rfl

theorem accumulateRecording_meetings (b : Record) (a : Recording) :
    (accumulateRecording b a).meetings = b.meetings := by
  unfold accumulateRecording; split <;> rfl

theorem accumulateRecording_recordings (b : Record) (a : Recording) :
    (accumulateRecording b a).recordings = b.recordings := by
  unfold accumulateRecording; split <;> rfl

theorem ComputeMeetingMetrics_online (r : Record) (ms : List Meeting) :
    (r.ComputeMeetingMetrics ms).online = r.online := by
  unfold Record.ComputeMeetingMetrics
  split
  · rfl
  · rw [foldl_preserve accumulateMeeting Record.online accumulateMeeting_online]

theorem ComputeMeetingMetrics_recordings (r : Record) (ms : List Meeting) :
    (r.ComputeMeetingMetrics ms).recordings = r.recordings := by
  unfold Record.ComputeMeetingMetrics
  split
  · rfl
  · rw [foldl_preserve accumulateMeeting Record.recordings accumulateMeeting_recordings]

theorem ComputeMeetingMetrics_meetings (r : Record) (ms : List Meeting) :
    (r.ComputeMeetingMetrics ms).meetings =
      if ms.length = 0 then r.meetings else ms.length := by
  unfold Record.ComputeMeetingMetrics
  split
  · rfl
  · rw [foldl_preserve accumulateMeeting Record.meetings accumulateMeeting_meetings]

theorem ComputeRecordingMetrics_online (r : Record) (rs : List Recording) :
    (r.ComputeRecordingMetrics rs).online = r.online := by
  unfold Record.ComputeRecordingMetrics
  split
  · rfl
  · rw [foldl_preserve accumulateRecording Record.online accumulateRecording_online]

theorem ComputeRecordingMetrics_meetings (r : Record) (rs : List Recording) :
    (r.ComputeRecordingMetrics rs).meetings = r.meetings := by
  unfold Record.ComputeRecordingMetrics
  split
  · rfl
  · rw [foldl_preserve accumulateRecording Record.meetings accumulateRecording_meetings]

theorem ComputeRecordingMetrics_recordings (r : Record) (rs : List Recording) :
    (r.ComputeRecordingMetrics rs).recordings =
      if rs.length = 0 then r.recordings else rs.length := by
  unfold Record.ComputeRecordingMetrics
  split
  · rfl
  · rw [foldl_preserve accumulateRecording Record.recordings accumulateRecording_recordings]

theorem ComputeOnlineMetric_meetings (r : Record) (h : HealthCheck) :
    (r.ComputeOnlineMetric h).meetings = r.meetings := by
  unfold Record.ComputeOnlineMetric; split <;> rfl

theorem ComputeOnlineMetric_recordings (r : Record) (h : HealthCheck) :
    (r.ComputeOnlineMetric h).recordings = r.recordings := by
  unfold Record.ComputeOnlineMetric; split <;> rfl

/-- The online counter of a freshly computed record depends only on the
health check: 1 exactly on the literal return code "SUCCESS". -/
theorem NewRecordFrom_online (ms : List Meeting) (rs : List Recording)
    (h : HealthCheck) :
    (NewRecordFrom ms rs h).online =
      if h.returnCode = "SUCCESS" then 1 else 0 := by
  unfold NewRecordFrom Record.ComputeOnlineMetric
  split
  · rfl
  · rw [ComputeRecordingMetrics_online, ComputeMeetingMetrics_online]
    rfl

theorem add64_right_comm (a b c : Nat) :
    add64 (add64 a b) c = add64 (add64 a c) b := by
  unfold add64
  rw [Nat.mod_add_mod, Nat.mod_add_mod, Nat.add_right_comm]

theorem accumulateMeeting_comm (r : Record) (a b : Meeting) :
    accumulateMeeting (accumulateMeeting r a) b =
      accumulateMeeting (accumulateMeeting r b) a := by
  unfold accumulateMeeting
  cases ha : a.recording <;> cases hb : b.recording <;>
    simp [add64_right_comm]

theorem accumulateRecording_comm (r : Record) (a b : Recording) :
    accumulateRecording (accumulateRecording r a) b =
      accumulateRecording (accumulateRecording r b) a := by
  unfold accumulateRecording
  cases ha : a.published <;> cases hb : b.published <;> simp

theorem ComputeMeetingMetrics_perm (r : Record) {ms ms' : List Meeting}
    (p : ms.Perm ms') :
    r.ComputeMeetingMetrics ms = r.ComputeMeetingMetrics ms' := by
  have hl : ms.length = ms'.length := p.length_eq
  unfold Record.ComputeMeetingMetrics
  rw [hl]
  by_cases h0 : ms'.length = 0
  · simp [h0]
  · simp only [if_neg h0]
    exact p.foldl_eq' (fun x _ y _ z => accumulateMeeting_comm z x y) _

theorem ComputeRecordingMetrics_perm (r : Record) {rs rs' : List Recording}
    (p : rs.Perm rs') :
    r.ComputeRecordingMetrics rs = r.ComputeRecordingMetrics rs' := by
  have hl : rs.length = rs'.length := p.length_eq
  unfold Record.ComputeRecordingMetrics
  rw [hl]
  by_cases h0 : rs'.length = 0
  · simp [h0]
  · simp only [if_neg h0]
    exact p.foldl_eq' (fun x _ y _ z => accumulateRecording_comm z x y) _

/-- With no meetings and no recordings, one step of the outer metadata
loop leaves the store untouched. -/
theorem metadataConfigStep_empty (rc mk rc2 mk2 : String)
    (store : List (String × MDStorage)) (md : String) :
    metadataConfigStep { returnCode := rc, messageKey := mk, meetings := [] }
      { returnCode := rc2, messageKey := mk2, recordings := [] } store md =
      some store := rfl

/-- With no meetings and no recordings, `GetMetadataRecords` returns the
empty map whatever the configured metadata names are. -/
theorem GetMetadataRecords_empty (cfg : List String) (rc mk rc2 mk2 : String)
    (h : HealthCheck) :
    GetMetadataRecords cfg
      { returnCode := rc, messageKey := mk, meetings := [] }
      { returnCode := rc2, messageKey := mk2, recordings := [] } h =
      some [] := by
  unfold GetMetadataRecords
  have hfold : ∀ (l : List String),
      l.foldlM (metadataConfigStep
          { returnCode := rc, messageKey := mk, meetings := [] }
          { returnCode := rc2, messageKey := mk2, recordings := [] })
        ([] : List (String × MDStorage)) = some [] := by
    intro l
    induction l with
    | nil => rfl
    | cons a l ih =>
      rw [List.foldlM_cons, metadataConfigStep_empty]
      exact ih
  rw [hfold]
  rfl

/-- Every aggregate in the map built by `GetMetadataRecords` is a
`NewRecordFrom` of some stored bucket and the cycle's health check. -/
theorem GetMetadataRecords_mem (cfg : List String) (mr : MeetingsResponse)
    (rr : RecordingsResponse) (h : HealthCheck)
    (res : List (String × Record))
    (hres : GetMetadataRecords cfg mr rr h = some res)
    (k : String) (record : Record) (hmem : (k, record) ∈ res) :
    ∃ s : MDStorage, record = NewRecordFrom s.meetings s.recordings h := by
  unfold GetMetadataRecords at hres
  cases hF : cfg.foldlM (metadataConfigStep mr rr)
      ([] : List (String × MDStorage)) with
  | none =>
    rw [hF] at hres
    simp at hres
  | some store =>
    rw [hF] at hres
    have hres2 : some (store.map
        (fun kv => (kv.1, NewRecordFrom kv.2.meetings kv.2.recordings h))) =
        some res := hres
    have hres3 := Option.some.inj hres2
    subst hres3
    obtain ⟨kv, _hkv, heq⟩ := List.mem_map.mp hmem
    exact ⟨kv.2, (congrArg Prod.snd heq).symm⟩

/-! ### Claims -/

/-- Claim C1 (code bug): the per-key aggregation is claimed to contribute
each record exactly once to the aggregate of every distinct metadata
value it carries for a configured key name.  In the current
`gatherMeetingsByMetadata` the contribution is lost: indexing the Go map
of structs copies the metric, `performMeetingCalculation` mutates the
copy, and the copy is never written back.  Evaluated at the repository's
own TestBigBlueButtonGatherByMetadata scenario (config `tenant`, one
meeting with metadata `tenant -> localhost` and 5 participants), the
bucket for "localhost" still holds the zero metric, where the claim and
the test require `meetings = 1` and `participants = 5`. -/
theorem c1_per_key_aggregate_not_updated :
    gatherMeetingsByMetadata ["tenant"] [] localhostMeeting =
      [("localhost", NewMeetingMetric)] ∧
    NewMeetingMetric.meetings = 0 ∧ NewMeetingMetric.participants = 0 :=
  ⟨by decide, rfl, rfl⟩

/-- Claim C2 (code bug): the claim says metadata extraction terminates
normally for every fragment, in particular when an element has no text
content between its open and close tags.  On the fragment `<a></a>` the
decoder yields a start-element and an end-element token with no CharData
in between, so `values` is still empty when the end-element is processed
and `values[len(values)-1]` panics with an index-out-of-range error
(modelled by `none`). -/
theorem c2_empty_element_extraction_panics :
    xmlToMap { tokens := [XmlToken.startElement "a", XmlToken.endElement "a"]
               decodeErr := false } = none := rfl

/-- Claim C3, counterexample: the claim says that whenever decoding
errors at any point the result is the EMPTY map.  For the malformed
fragment `<a>x</a><` the decoder yields the three tokens of `<a>x</a>`
and then a syntax error; `xmlToMap` returns the partially populated map
binding "a" to "x", observably different from the empty map. -/
theorem c3_counterexample :
    xmlToMap { tokens := [XmlToken.startElement "a", XmlToken.charData "x",
                          XmlToken.endElement "a"]
               decodeErr := true } = some [("a", "x")] ∧
    mLookup [("a", "x")] "a" ≠ mLookup ([] : List (String × String)) "a" :=
  ⟨rfl, by decide⟩

/-- Claim C3, amended: on a malformed fragment `xmlToMap` never
propagates the decode error; it stops at the error and returns the map
accumulated from the tokens decoded so far — a possibly partially
populated map, identical to what the same token prefix yields without a
decode error (or the empty-buffer panic of C2, in either case). -/
theorem c3_decode_error_keeps_partial_map (ts : List XmlToken) :
    xmlToMap { tokens := ts, decodeErr := true } = xmlToMapAux ts [] [] ∧
    xmlToMap { tokens := ts, decodeErr := true } =
      xmlToMap { tokens := ts, decodeErr := false } :=
  ⟨rfl, rfl⟩

/-- Claim C4, counterexample: the claim says no execution both emits a
record to the accumulator and returns an error.  `gatherAPIStatus` (the
`Gatherv2` path) does exactly that when the health fetch fails: it adds
the record `online = 0` to the accumulator AND returns the error. -/
theorem c4_counterexample :
    gatherAPIStatus (Except.error "boom") =
      ([("bigbluebutton_api", 0)], some "boom") ∧
    ([("bigbluebutton_api", 0)] : List (String × Nat)) ≠ [] :=
  ⟨rfl, by decide⟩

/-- Claim C4, amended: the metadata-aware `Gather` (the revision that
fetches all three responses before emitting anything) IS all-or-nothing:
when it returns an error it has added nothing to the accumulator, and
when it returns without error all three fetches succeeded and it has
emitted the complete global aggregate followed by the full metadata
breakdown (empty when no metadata grouping is configured).  The
`Gatherv2`/`gatherAPIStatus` path is excluded, per the counterexample. -/
theorem c4_gather_all_or_nothing (cfg : List String)
    (fm : Except String MeetingsResponse)
    (fr : Except String RecordingsResponse)
    (fh : Except String HealthCheck) :
    (∀ emitted e, Gather cfg fm fr fh = CycleResult.normal emitted (some e) →
      emitted = []) ∧
    (∀ emitted, Gather cfg fm fr fh = CycleResult.normal emitted none →
      ∃ m r h, fm = Except.ok m ∧ fr = Except.ok r ∧ fh = Except.ok h ∧
        ((cfg.length = 0 ∧
            emitted = [("bigbluebutton", NewRecordFrom m.meetings r.recordings h)]) ∨
         (∃ recs, GetMetadataRecords cfg m r h = some recs ∧
            emitted = ("bigbluebutton", NewRecordFrom m.meetings r.recordings h) ::
              recs.map (fun kv => ("bigbluebutton:" ++ kv.1, kv.2))))) := by
  cases fm with
  | error e0 =>
    constructor
    · intro emitted e hg
      simp only [Gather, CycleResult.normal.injEq] at hg
      exact hg.1.symm
    · intro emitted hg
      simp only [Gather, CycleResult.normal.injEq] at hg
      exact absurd hg.2 (by simp)
  | ok m =>
    cases fr with
    | error e0 =>
      constructor
      · intro emitted e hg
        simp only [Gather, CycleResult.normal.injEq] at hg
        exact hg.1.symm
      · intro emitted hg
        simp only [Gather, CycleResult.normal.injEq] at hg
        exact absurd hg.2 (by simp)
    | ok r =>
      cases fh with
      | error e0 =>
        constructor
        · intro emitted e hg
          simp only [Gather, CycleResult.normal.injEq] at hg
          exact hg.1.symm
        · intro emitted hg
          simp only [Gather, CycleResult.normal.injEq] at hg
          exact absurd hg.2 (by simp)
      | ok h =>
        by_cases hc : cfg.length > 0
        · cases hG : GetMetadataRecords cfg m r h with
          | none =>
            constructor
            · intro emitted e hg
              simp only [Gather, if_pos hc, hG] at hg
              exact CycleResult.noConfusion hg
            · intro emitted hg
              simp only [Gather, if_pos hc, hG] at hg
              exact CycleResult.noConfusion hg
          | some recs =>
            constructor
            · intro emitted e hg
              simp only [Gather, if_pos hc, hG, CycleResult.normal.injEq] at hg
              exact absurd hg.2 (by simp)
            · intro emitted hg
              simp only [Gather, if_pos hc, hG, CycleResult.normal.injEq] at hg
              refine ⟨m, r, h, rfl, rfl, rfl, Or.inr ⟨recs, hG, ?_⟩⟩
              rw [← hg.1]
              rfl
        · constructor
          · intro emitted e hg
            simp only [Gather, if_neg hc, CycleResult.normal.injEq] at hg
            exact absurd hg.2 (by simp)
          · intro emitted hg
            simp only [Gather, if_neg hc, CycleResult.normal.injEq] at hg
            exact ⟨m, r, h, rfl, rfl, rfl,
              Or.inl ⟨by omega, hg.1.symm⟩⟩

/-- Witness for C4 amended: a concrete error-free cycle with no metadata
grouping, where `Gather` emits exactly the global aggregate. -/
theorem c4_gather_all_or_nothing_witness :
    ∃ m r h, (Except.ok mrTenant : Except String MeetingsResponse) = Except.ok m ∧
      (Except.ok rrTenant : Except String RecordingsResponse) = Except.ok r ∧
      (Except.ok hcSuccess : Except String HealthCheck) = Except.ok h ∧
      ((([] : List String).length = 0 ∧
          [("bigbluebutton", NewRecordFrom mrTenant.meetings rrTenant.recordings hcSuccess)] =
            [("bigbluebutton", NewRecordFrom m.meetings r.recordings h)]) ∨
       (∃ recs, GetMetadataRecords [] m r h = some recs ∧
          [("bigbluebutton", NewRecordFrom mrTenant.meetings rrTenant.recordings hcSuccess)] =
            ("bigbluebutton", NewRecordFrom m.meetings r.recordings h) ::
              recs.map (fun kv => ("bigbluebutton:" ++ kv.1, kv.2)))) :=
  (c4_gather_all_or_nothing [] (Except.ok mrTenant) (Except.ok rrTenant)
    (Except.ok hcSuccess)).2
    [("bigbluebutton", NewRecordFrom mrTenant.meetings rrTenant.recordings hcSuccess)]
    rfl

/-- Claim C5: with no meetings and no recordings, every counter of the
global aggregate is zero except `online`, which is 1 exactly when the
health check return code is "SUCCESS"; and the metadata map is empty. -/
theorem c5_empty_inputs_zero_aggregate (h : HealthCheck) :
    NewRecordFrom [] [] h =
      { NewRecord with online := if h.returnCode = "SUCCESS" then 1 else 0 } ∧
    ∀ (cfg : List String) (rc mk rc2 mk2 : String),
      GetMetadataRecords cfg
        { returnCode := rc, messageKey := mk, meetings := [] }
        { returnCode := rc2, messageKey := mk2, recordings := [] } h =
        some [] := by
  constructor
  · have hbase : NewRecordFrom [] [] h = NewRecord.ComputeOnlineMetric h := rfl
    rw [hbase]
    unfold Record.ComputeOnlineMetric
    split <;> rfl
  · intro cfg rc mk rc2 mk2
    exact GetMetadataRecords_empty cfg rc mk rc2 mk2 h

/-- Claim C6: the global aggregate counts exactly the input collections:
`meetings` equals the length of the meeting list and `recordings` the
length of the recording list, for every input (empty or not). -/
theorem c6_counts_equal_lengths (ms : List Meeting) (rs : List Recording)
    (h : HealthCheck) :
    (NewRecordFrom ms rs h).meetings = ms.length ∧
    (NewRecordFrom ms rs h).recordings = rs.length := by
  constructor
  · unfold NewRecordFrom
    rw [ComputeOnlineMetric_meetings, ComputeRecordingMetrics_meetings,
      ComputeMeetingMetrics_meetings]
    split
    · rw [show NewRecord.meetings = 0 from rfl]
      omega
    · rfl
  · unfold NewRecordFrom
    rw [ComputeOnlineMetric_recordings, ComputeRecordingMetrics_recordings,
      ComputeMeetingMetrics_recordings]
    split
    · rw [show NewRecord.recordings = 0 from rfl]
      omega
    · rfl

/-- Claim C7: every per-metadata-value aggregate built by
`GetMetadataRecords` carries the same online value as the global
aggregate of the same cycle: 1 exactly when the health check return code
is "SUCCESS", independently of the bucket. -/
theorem c7_online_uniform (cfg : List String) (mr : MeetingsResponse)
    (rr : RecordingsResponse) (h : HealthCheck)
    (res : List (String × Record))
    (hres : GetMetadataRecords cfg mr rr h = some res)
    (k : String) (record : Record) (hmem : (k, record) ∈ res) :
    record.online = (NewRecordFrom mr.meetings rr.recordings h).online ∧
    record.online = (if h.returnCode = "SUCCESS" then 1 else 0) := by
  obtain ⟨s, hs⟩ := GetMetadataRecords_mem cfg mr rr h res hres k record hmem
  constructor
  · rw [hs, NewRecordFrom_online, NewRecordFrom_online]
  · rw [hs, NewRecordFrom_online]

/-- Witness for C7: a concrete cycle with one meeting and one recording
grouped under the metadata value "acme". -/
theorem c7_online_uniform_witness :
    (NewRecordFrom [sampleMeetingParsed] [sampleRecordingParsed] hcSuccess).online =
      (NewRecordFrom mrTenant.meetings rrTenant.recordings hcSuccess).online ∧
    (NewRecordFrom [sampleMeetingParsed] [sampleRecordingParsed] hcSuccess).online =
      (if hcSuccess.returnCode = "SUCCESS" then 1 else 0) :=
  c7_online_uniform ["tenant"] mrTenant rrTenant hcSuccess
    [("acme", NewRecordFrom [sampleMeetingParsed] [sampleRecordingParsed] hcSuccess)]
    (by decide) "acme"
    (NewRecordFrom [sampleMeetingParsed] [sampleRecordingParsed] hcSuccess)
    (by decide)

/-- Claim C8: the global aggregate is invariant under permutation of the
meeting list and of the recording list. -/
theorem c8_aggregate_perm_invariant (ms ms' : List Meeting)
    (rs rs' : List Recording) (h : HealthCheck)
    (pm : ms.Perm ms') (pr : rs.Perm rs') :
    NewRecordFrom ms rs h = NewRecordFrom ms' rs' h := by
  unfold NewRecordFrom
  rw [ComputeMeetingMetrics_perm NewRecord pm, ComputeRecordingMetrics_perm _ pr]

/-- Witness for C8: swapping two concrete meetings leaves the aggregate
unchanged. -/
theorem c8_aggregate_perm_invariant_witness :
    NewRecordFrom [sampleMeeting, sampleMeetingB] [] hcSuccess =
      NewRecordFrom [sampleMeetingB, sampleMeeting] [] hcSuccess :=
  c8_aggregate_perm_invariant _ _ _ _ _
    (List.Perm.swap sampleMeetingB sampleMeeting [])
    (List.Perm.refl [])

/-- Claim C9: the health mapping yields online 1 exactly when the return
code is the literal "SUCCESS" and 0 for every other string, including
the empty string; this holds for `processAPIStatus` and for
`ComputeOnlineMetric` applied to the fresh record. -/
theorem c9_health_mapping (h : HealthCheck) :
    (processAPIStatus h).online = (if h.returnCode = "SUCCESS" then 1 else 0) ∧
    (NewRecord.ComputeOnlineMetric h).online =
      (if h.returnCode = "SUCCESS" then 1 else 0) ∧
    (processAPIStatus { returnCode := "", version := "" }).online = 0 := by
  refine ⟨?_, ?_, by decide⟩
  · unfold processAPIStatus
    split <;> rfl
  · unfold Record.ComputeOnlineMetric
    split <;> rfl

/-- Claim C10: `values = values[:]` never clears the text buffer, so an
end-element token processed while the buffer is non-empty binds the
element's key to the most recently buffered text (of an earlier element
when the element had no text of its own), and the buffer continues
unchanged into the rest of the stream. -/
theorem c10_stale_buffer_binding (name : String) (rest : List XmlToken)
    (values : List String) (m : List (String × String)) (h : values ≠ []) :
    xmlToMapAux (XmlToken.endElement name :: rest) values m =
      xmlToMapAux rest values (mPut m name (values.getLast h)) := by
  have hl : values.getLast? = some (values.getLast h) :=
    List.getLast?_eq_getLast values h
  simp [xmlToMapAux, hl]

/-- Witness for C10: after `<a>x</a>`, the contentless element `<b></b>`
gets bound to the stale buffered text "x". -/
theorem c10_stale_buffer_binding_witness :
    xmlToMapAux [XmlToken.endElement "b"] ["x"] [] =
      xmlToMapAux [] ["x"] (mPut [] "b" (["x"].getLast (by decide))) :=
  c10_stale_buffer_binding "b" [] ["x"] [] (by decide)

end BBB
